import Mathlib

/-!
Verification of the Gemini web-RPC protocol core of the `ai-cli` repository.

The development shallowly embeds the protocol code:

* a model of JavaScript JSON values (`JVal`) with an executable `JSON.parse`
  embedding (`jsonParse`) and a `JSON.stringify` embedding (`render`), plus
  `encodeURIComponent`;
* the response decoder `parseGeminiResponse` (the gemini parser module is
  absent from the sources, so it is modelled from the spec);
* the request formatter (`formatMessage`, `buildContextArray`,
  `buildInnerPayload`, `buildFReq`, `formatGeminiRequestBody`) from
  `gemini_formatter`;
* the provider session logic from the `GeminiProvider` class: cookie
  updating (`parseSetCookie`, `applySetCookies`, `updateCookies`), the nonce
  bootstrap (`getSNlM0e`) and the inline request body of `callGeminiAPI`.

Strings are worked with through their character lists, and all recursion is
structural (fuel-driven where needed) so every definition evaluates by `rfl`.
-/

namespace AiCli

/-! ## JavaScript JSON value model -/

/-- A JavaScript value as produced by `JSON.parse`: null, boolean, number
(kept as its source lexeme, since the protocol code never inspects numeric
values), string, array or object. -/
inductive JVal where
  | jnull
  | jbool (b : Bool)
  | jnum (lex : String)
  | jstr (s : String)
  | jarr (elems : List JVal)
  | jobj (fields : List (String × JVal))
deriving Repr, BEq

/-- The apostrophe character (written by code point to keep source plain). -/
def apos : Char := Char.ofNat 39

/-- JSON whitespace. -/
def jWs (c : Char) : Bool := c = ' ' ∨ c = '\t' ∨ c = '\n' ∨ c = '\r'

/-- ASCII decimal digit. -/
def jDigit (c : Char) : Bool := '0' ≤ c ∧ c ≤ '9'

/-- Drop leading JSON whitespace. -/
def dropJWs (cs : List Char) : List Char := cs.dropWhile jWs

/-- Value of one hexadecimal digit. -/
def hexDigitVal (c : Char) : Option Nat :=
  if '0' ≤ c ∧ c ≤ '9' then some (c.toNat - '0'.toNat)
  else if 'a' ≤ c ∧ c ≤ 'f' then some (c.toNat - 'a'.toNat + 10)
  else if 'A' ≤ c ∧ c ≤ 'F' then some (c.toNat - 'A'.toNat + 10)
  else none

/-- Value of a four-hex-digit escape body. -/
def hexQuad (a b c d : Char) : Option Nat :=
  match hexDigitVal a, hexDigitVal b, hexDigitVal c, hexDigitVal d with
  | some va, some vb, some vc, some vd => some (((va * 16 + vb) * 16 + vc) * 16 + vd)
  | _, _, _, _ => none

/-- The single-character JSON escapes. -/
def escTable (c : Char) : Option Char :=
  if c = '"' then some '"'
  else if c = '\\' then some '\\'
  else if c = '/' then some '/'
  else if c = 'b' then some (Char.ofNat 8)
  else if c = 'f' then some (Char.ofNat 12)
  else if c = 'n' then some '\n'
  else if c = 'r' then some '\r'
  else if c = 't' then some '\t'
  else none

/-- Scan the body of a JSON string after the opening quote, decoding escapes
(surrogate pairs included); fuel-driven so that the kernel can evaluate it. -/
def scanJString : Nat → List Char → List Char → Option (String × List Char)
  | 0, _, _ => none
  | _ + 1, acc, '"' :: rest => some (String.mk acc.reverse, rest)
  | fuel + 1, acc, '\\' :: 'u' :: a :: b :: c :: d :: rest =>
      match hexQuad a b c d with
      | some n =>
          if 0xD800 ≤ n ∧ n ≤ 0xDBFF then
            match rest with
            | '\\' :: 'u' :: a2 :: b2 :: c2 :: d2 :: rest2 =>
                match hexQuad a2 b2 c2 d2 with
                | some m =>
                    if 0xDC00 ≤ m ∧ m ≤ 0xDFFF then
                      scanJString fuel
                        (Char.ofNat (0x10000 + (n - 0xD800) * 0x400 + (m - 0xDC00)) :: acc) rest2
                    else none
                | none => none
            | _ => none
          else scanJString fuel (Char.ofNat n :: acc) rest
      | none => none
  | fuel + 1, acc, '\\' :: e :: rest =>
      match escTable e with
      | some ch => scanJString fuel (ch :: acc) rest
      | none => none
  | fuel + 1, acc, c :: rest =>
      if c.toNat < 32 then none else scanJString fuel (c :: acc) rest
  | _ + 1, _, [] => none

/-- Scan a JSON number token, returning its lexeme. -/
def scanJNumber (cs : List Char) : Option (String × List Char) :=
  let (sign, cs1) := match cs with
    | '-' :: r => (['-'], r)
    | _ => (([] : List Char), cs)
  let intPart := cs1.takeWhile jDigit
  let cs2 := cs1.dropWhile jDigit
  if intPart = [] then none
  else
    let (fracPart, cs3) := match cs2 with
      | '.' :: r =>
          if (r.takeWhile jDigit) = [] then (([] : List Char), cs2)
          else ('.' :: r.takeWhile jDigit, r.dropWhile jDigit)
      | _ => ([], cs2)
    let (expPart, cs4) := match cs3 with
      | e :: r =>
          if e = 'e' ∨ e = 'E' then
            let (sgn, r1) := match r with
              | '+' :: r2 => (['+'], r2)
              | '-' :: r2 => (['-'], r2)
              | _ => (([] : List Char), r)
            if (r1.takeWhile jDigit) = [] then (([] : List Char), cs3)
            else (e :: (sgn ++ r1.takeWhile jDigit), r1.dropWhile jDigit)
          else ([], cs3)
      | _ => ([], cs3)
    some (String.mk (sign ++ intPart ++ fracPart ++ expPart), cs4)

mutual

/-- Parse one JSON value from the head of the input (fuel-driven). -/
def parseJVal : Nat → List Char → Option (JVal × List Char)
  | 0, _ => none
  | fuel + 1, cs =>
    match dropJWs cs with
    | 'n' :: 'u' :: 'l' :: 'l' :: rest => some (.jnull, rest)
    | 't' :: 'r' :: 'u' :: 'e' :: rest => some (.jbool true, rest)
    | 'f' :: 'a' :: 'l' :: 's' :: 'e' :: rest => some (.jbool false, rest)
    | '"' :: rest =>
        (match scanJString (rest.length + 1) [] rest with
         | some (s, rest2) => some (.jstr s, rest2)
         | none => none)
    | '[' :: rest =>
        (match dropJWs rest with
         | ']' :: rest2 => some (.jarr [], rest2)
         | other =>
            match parseJItems fuel other with
            | some (es, rest2) => some (.jarr es, rest2)
            | none => none)
    | '{' :: rest =>
        (match dropJWs rest with
         | '}' :: rest2 => some (.jobj [], rest2)
         | other =>
            match parseJFields fuel other with
            | some (fs, rest2) => some (.jobj fs, rest2)
            | none => none)
    | other =>
        match scanJNumber other with
        | some (lex, rest) => some (.jnum lex, rest)
        | none => none

/-- Parse one-or-more comma-separated array items up to the closing bracket. -/
def parseJItems : Nat → List Char → Option (List JVal × List Char)
  | 0, _ => none
  | fuel + 1, cs =>
    match parseJVal fuel cs with
    | none => none
    | some (v, rest) =>
      match dropJWs rest with
      | ',' :: rest2 =>
          (match parseJItems fuel rest2 with
           | some (vs, rest3) => some (v :: vs, rest3)
           | none => none)
      | ']' :: rest2 => some ([v], rest2)
      | _ => none

/-- Parse one-or-more comma-separated object members up to the closing brace. -/
def parseJFields : Nat → List Char → Option (List (String × JVal) × List Char)
  | 0, _ => none
  | fuel + 1, cs =>
    match dropJWs cs with
    | '"' :: rest =>
        (match scanJString (rest.length + 1) [] rest with
         | none => none
         | some (k, rest1) =>
            match dropJWs rest1 with
            | ':' :: rest2 =>
                (match parseJVal fuel rest2 with
                 | none => none
                 | some (v, rest3) =>
                    match dropJWs rest3 with
                    | ',' :: rest4 =>
                        (match parseJFields fuel rest4 with
                         | some (fs, rest5) => some ((k, v) :: fs, rest5)
                         | none => none)
                    | '}' :: rest4 => some ([(k, v)], rest4)
                    | _ => none)
            | _ => none)
    | _ => none

end

/-- `JSON.parse` on a character list: a whole-input parse, trailing whitespace
allowed, `none` on malformed input (the embedding of a thrown `SyntaxError`). -/
def jsonParseL (cs : List Char) : Option JVal :=
  match parseJVal (2 * cs.length + 8) cs with
  | some (v, rest) => if dropJWs rest = [] then some v else none
  | none => none

/-- `JSON.parse` embedding on strings. -/
def jsonParse (s : String) : Option JVal := jsonParseL s.data

/-! ## `JSON.stringify` and `encodeURIComponent` embeddings -/

/-- Lower-case hexadecimal digit. -/
def lowHex (n : Nat) : Char :=
  if n < 10 then Char.ofNat ('0'.toNat + n) else Char.ofNat ('a'.toNat + n - 10)

/-- Upper-case hexadecimal digit. -/
def upHex (n : Nat) : Char :=
  if n < 10 then Char.ofNat ('0'.toNat + n) else Char.ofNat ('A'.toNat + n - 10)

/-- One character as `JSON.stringify` emits it inside a quoted string. -/
def escapeJsonChar (c : Char) : List Char :=
  if c = '"' then ['\\', '"']
  else if c = '\\' then ['\\', '\\']
  else if c = Char.ofNat 8 then ['\\', 'b']
  else if c = '\t' then ['\\', 't']
  else if c = '\n' then ['\\', 'n']
  else if c = Char.ofNat 12 then ['\\', 'f']
  else if c = '\r' then ['\\', 'r']
  else if c.toNat < 32 then
    ['\\', 'u', '0', '0', lowHex (c.toNat / 16), lowHex (c.toNat % 16)]
  else [c]

/-- A quoted, escaped JSON string literal, as a character list. -/
def renderJStrChars (s : String) : List Char :=
  '"' :: (s.data.flatMap escapeJsonChar ++ ['"'])

mutual

/-- `JSON.stringify` embedding (numbers re-emit their parsed lexeme). -/
def render : JVal → List Char
  | .jnull => "null".data
  | .jbool true => "true".data
  | .jbool false => "false".data
  | .jnum lex => lex.data
  | .jstr s => renderJStrChars s
  | .jarr es => '[' :: (renderItems es ++ [']'])
  | .jobj fs => '{' :: (renderFields fs ++ ['}'])

/-- Comma-separated rendering of array items. -/
def renderItems : List JVal → List Char
  | [] => []
  | [e] => render e
  | e :: es => render e ++ ',' :: renderItems es

/-- Comma-separated rendering of object members. -/
def renderFields : List (String × JVal) → List Char
  | [] => []
  | [(k, v)] => renderJStrChars k ++ ':' :: render v
  | (k, v) :: fs => renderJStrChars k ++ ':' :: render v ++ ',' :: renderFields fs

end

/-- The characters `encodeURIComponent` leaves unescaped. -/
def uriUnescaped (c : Char) : Bool :=
  ('A' ≤ c ∧ c ≤ 'Z') ∨ ('a' ≤ c ∧ c ≤ 'z') ∨ ('0' ≤ c ∧ c ≤ '9') ∨
  c = '-' ∨ c = '_' ∨ c = '.' ∨ c = '!' ∨ c = '~' ∨ c = '*' ∨ c = apos ∨
  c = '(' ∨ c = ')'

/-- UTF-8 bytes of one character. -/
def utf8BytesOfChar (c : Char) : List Nat :=
  let n := c.toNat
  if n < 0x80 then [n]
  else if n < 0x800 then [0xC0 + n / 64, 0x80 + n % 64]
  else if n < 0x10000 then [0xE0 + n / 4096, 0x80 + n / 64 % 64, 0x80 + n % 64]
  else [0xF0 + n / 262144, 0x80 + n / 4096 % 64, 0x80 + n / 64 % 64, 0x80 + n % 64]

/-- Percent-encoding of one byte (upper-case hex, as in JavaScript). -/
def pctByte (b : Nat) : List Char := ['%', upHex (b / 16), upHex (b % 16)]

/-- `encodeURIComponent` embedding. -/
def encodeURIComponent (s : String) : String :=
  String.mk (s.data.flatMap fun c =>
    if uriUnescaped c then [c] else (utf8BytesOfChar c).flatMap pctByte)

/-! ## Response decoding (Frame Codec, decode direction) -/

/-- The four XSSI guard characters the service prepends to response bodies. -/
def xssiChars : List Char := [')', ']', '}', apos]

/-- The XSSI guard as a string, for stating concrete cases. -/
def xssiGuard : String := String.mk xssiChars

/-- Modelled from the spec: step 1 of `decodeResponse` (the gemini parser
module the provider imports is absent from the sources) — strip the literal
4-byte XSSI guard when present at the start, and nothing else. -/
def stripXSSI (cs : List Char) : List Char :=
  if xssiChars.isPrefixOf cs then cs.drop 4 else cs

/-- Modelled from the spec: a line consisting entirely of decimal digits is a
byte-length marker for the following frame. -/
def isLengthLine (l : List Char) : Bool := ¬ l = [] ∧ l.all jDigit

/-- Modelled from the spec: steps 2-3 of `decodeResponse` — split on newlines,
skip length-marker and blank lines, JSON-parse the rest and silently drop
parse failures. -/
def responseFrames (cs : List Char) : List JVal :=
  (cs.splitOn '\n').filterMap fun l =>
    if l = [] ∨ isLengthLine l then none else jsonParseL l

/-- What `decodeResponse` returns: the extracted text and any continuation
identifiers recovered from the payload. -/
structure DecodeResult where
  text : String
  conversationId : Option String
  responseId : Option String
deriving Repr, BEq, DecidableEq

/-- Modelled from the spec: a candidate is `[choiceId, [text, ...]]`; its
usable text is the first string of the text-parts array at index 1. -/
def candidateText : JVal → Option String
  | .jarr (_ :: .jarr (.jstr t :: _) :: _) => some t
  | _ => none

/-- Modelled from the spec: recover `conversationId`/`responseId` from payload
index 1 when present. -/
def payloadIds : JVal → Option String × Option String
  | .jarr (_ :: .jarr (.jstr c :: .jstr r :: _) :: _) => (some c, some r)
  | _ => (none, none)

/-- Modelled from the spec: the candidates array sits at payload index 4. -/
def payloadCandidates : JVal → Option JVal
  | .jarr (_ :: _ :: _ :: _ :: c :: _) => some c
  | _ => none

/-- Modelled from the spec: step 5 of `decodeResponse` — from the twice-parsed
payload read the candidates at index 4; if non-empty, take entry 0 and its
first text string, and recover the continuation ids from index 1. -/
def payloadResult (p : JVal) : Option DecodeResult :=
  match payloadCandidates p with
  | some (.jarr (cand :: _)) =>
      (match candidateText cand with
       | some t => some ⟨t, (payloadIds p).1, (payloadIds p).2⟩
       | none => none)
  | _ => none

/-- Modelled from the spec: step 4 of `decodeResponse` — a significant frame
is an outer array whose first element is an array starting with the literal
string under scrutiny (`wrb.fr`); that element's index 2 is a JSON-encoded
string, parsed a second time. -/
def frameResult : JVal → Option DecodeResult
  | .jarr (.jarr (.jstr "wrb.fr" :: _ :: .jstr payloadStr :: _) :: _) =>
      (match jsonParse payloadStr with
       | some p => payloadResult p
       | none => none)
  | _ => none

/-- Modelled from the spec: `decodeResponse` — the whole decode pipeline of
the absent gemini parser module, per spec steps 1-6: strip the XSSI guard,
frame the lines, extract the first usable `wrb.fr` candidate, and fall back
to the XSSI-stripped raw text verbatim (never raising). -/
def parseGeminiResponse (raw : String) : DecodeResult :=
  match (responseFrames (stripXSSI raw.data)).findSome? frameResult with
  | some r => r
  | none => ⟨String.mk (stripXSSI raw.data), none, none⟩

/-! ## Request formatting (Frame Codec, encode direction; `gemini_formatter`) -/

/-- The options record accepted by the request formatter. -/
structure GeminiRequestOptions where
  message : String
  systemPrompt : Option String
  conversationId : Option String
  responseId : Option String
  choiceId : Option String
deriving Repr, BEq, DecidableEq

/-- `formatMessage`: the user message alone, or labelled system prompt and
message when a non-empty system prompt is given (JavaScript truthiness: an
empty prompt counts as absent). -/
def formatMessage (message : String) (systemPrompt : Option String) : String :=
  match systemPrompt with
  | some sp =>
      if sp = "" then message
      else "SYSTEM:\n" ++ sp ++ "\n\nUSER:\n" ++ message
  | none => message

/-- `buildMessageArray`: `[formattedMessage]`. -/
def buildMessageArray (message : String) (systemPrompt : Option String) : List JVal :=
  [.jstr (formatMessage message systemPrompt)]

/-- `buildContextArray`: `[conversationId ?? null, responseId ?? null,
choiceId ?? null]`. -/
def buildContextArray (options : GeminiRequestOptions) : List (Option String) :=
  [options.conversationId, options.responseId, options.choiceId]

/-- A nullable string as the JSON value it serialises to. -/
def jOfOptStr : Option String → JVal
  | some s => .jstr s
  | none => .jnull

/-- `buildInnerPayload`: `JSON.stringify([messageArray, null, contextArray])`. -/
def buildInnerPayload (options : GeminiRequestOptions) : String :=
  String.mk (render (.jarr
    [ .jarr (buildMessageArray options.message options.systemPrompt),
      .jnull,
      .jarr ((buildContextArray options).map jOfOptStr) ]))

/-- `buildFReq`: `JSON.stringify([null, innerPayloadString])` — the inner
payload embedded as a string (double JSON encoding). -/
def buildFReq (options : GeminiRequestOptions) : String :=
  String.mk (render (.jarr [.jnull, .jstr (buildInnerPayload options)]))

/-- `formatGeminiRequestBody`: the URL-encoded POST body
`f.req=<encoded outer envelope>&at=<nonce>`. -/
def formatGeminiRequestBody (options : GeminiRequestOptions) (snlm0e : String) : String :=
  "f.req=" ++ encodeURIComponent (buildFReq options) ++ "&at=" ++ snlm0e

/-! ## Provider session state (`GeminiProvider`) -/

/-- The cookie map (a JavaScript object: insertion-ordered key/value pairs). -/
abbrev CookieMap := List (String × String)

/-- Property read on the cookie object. -/
def lookupCookie (m : CookieMap) (name : String) : Option String :=
  match m.find? (fun p => p.1 == name) with
  | some p => some p.2
  | none => none

/-- Property write on the cookie object: update in place when the key exists,
append otherwise. -/
def setCookieVal (m : CookieMap) (name value : String) : CookieMap :=
  if m.any (fun p => p.1 == name) then
    m.map fun p => if p.1 == name then (name, value) else p
  else m ++ [(name, value)]

/-- The name/value extraction of `updateCookies` applied to the part of one
`Set-Cookie` entry before the first semicolon: split on `=`, the name is the
first field and the value is the remaining fields re-joined with `=`; both
must be non-empty (JavaScript truthiness). -/
def parseNameValue (nameValue : List Char) : Option (String × String) :=
  if nameValue = [] then none
  else
    match nameValue.splitOn '=' with
    | [] => none
    | name :: valueParts =>
      if name = [] ∨ List.intercalate ['='] valueParts = [] then none
      else some (String.mk name, String.mk (List.intercalate ['='] valueParts))

/-- One `Set-Cookie` entry parsed as `updateCookies` does: only the part
before the first `;` is considered (attributes ignored). -/
def parseSetCookie (cookieStr : String) : Option (String × String) :=
  match cookieStr.data.splitOn ';' with
  | [] => none
  | nameValue :: _ => parseNameValue nameValue

/-- The `updateCookies` loop over the `Set-Cookie` entries: a parsed entry
whose value differs from the stored one updates the map and marks the
session changed. -/
def applySetCookies (m : CookieMap) : List String → CookieMap × Bool
  | [] => (m, false)
  | sc :: rest =>
    match parseSetCookie sc with
    | none => applySetCookies m rest
    | some (n, v) =>
      if lookupCookie m n = some v then applySetCookies m rest
      else ((applySetCookies (setCookieVal m n v) rest).1, true)

/-- The `gemini` section of the configuration. -/
structure GeminiConfig where
  cookies : CookieMap
deriving Repr, BEq, DecidableEq

/-- The provider configuration (only the part the protocol core reads). -/
structure Config where
  gemini : Option GeminiConfig
deriving Repr, BEq, DecidableEq

/-- Outcome of `updateCookies`: the possibly-rewritten configuration, and
whether `saveConfig` was invoked (exactly when some entry changed). -/
structure CookieUpdate where
  config : Config
  saved : Bool
deriving Repr, BEq, DecidableEq

/-- `updateCookies`: no-op without a `gemini` config section or without
`Set-Cookie` entries; otherwise fold the entries over the cookie map and
persist the configuration exactly when something changed. -/
def updateCookies (config : Config) (setCookies : List String) : CookieUpdate :=
  match config.gemini with
  | none => ⟨config, false⟩
  | some g =>
    if setCookies = [] then ⟨config, false⟩
    else
      let r := applySetCookies g.cookies setCookies
      ⟨⟨some ⟨r.1⟩⟩, r.2⟩

/-- The mutable fields of a `GeminiProvider` instance. -/
structure GeminiProviderState where
  snlm0e : Option String
  bl : Option String
  config : Config
deriving Repr, BEq, DecidableEq

/-- An HTTP response as the session logic observes it. -/
structure HttpResponse where
  ok : Bool
  status : Nat
  setCookies : List String
  body : String
deriving Repr, BEq, DecidableEq

/-- The errors `getSNlM0e` can raise: missing credentials, a failed bootstrap
fetch, or the authentication failure "Could not find SNlM0e nonce. Cookies
might be invalid.". -/
inductive GeminiError where
  | cookiesMissing
  | pageFetchFailed (status : Nat)
  | nonceNotFound
deriving Repr, BEq, DecidableEq

/-- One observed `getSNlM0e` call: its result, the post-state, whether the
bootstrap page was fetched, and whether the configuration was persisted. -/
structure NonceCall where
  result : Except GeminiError String
  state : GeminiProviderState
  fetched : Bool
  saved : Bool
deriving Repr

/-- The search for `/"SNlM0e":"([^"]+)"/`-style patterns: at the first
position where the fixed pattern is followed by one-or-more non-quote
characters and a closing quote, capture those characters. -/
def keyCapture (pat : List Char) : List Char → Option String
  | [] => none
  | c :: cs =>
    if pat.isPrefixOf (c :: cs) then
      let rest := (c :: cs).drop pat.length
      let captured := rest.takeWhile fun x => x ≠ '"'
      if captured ≠ [] ∧ rest.drop captured.length ≠ [] then some (String.mk captured)
      else keyCapture pat cs
    else keyCapture pat cs

/-- The loose version-string search `/(boq_assistant-bard-web-server_[^"]+)/`:
the whole match (fixed head plus the following non-quote run) is captured and
no closing quote is required. -/
def looseCapture (pat : List Char) : List Char → Option String
  | [] => none
  | c :: cs =>
    if pat.isPrefixOf (c :: cs) then
      let rest := (c :: cs).drop pat.length
      let captured := rest.takeWhile fun x => x ≠ '"'
      if captured ≠ [] then some (String.mk (pat ++ captured))
      else looseCapture pat cs
    else looseCapture pat cs

/-- The fixed part of the nonce pattern. -/
def snlm0eKey : List Char := "\"SNlM0e\":\"".data

/-- The fixed part of the primary backend-version pattern. -/
def cfb2hKey : List Char := "\"cfb2h\":\"".data

/-- The fixed head of the loose backend-version pattern. -/
def blLooseHead : List Char := "boq_assistant-bard-web-server_".data

/-- The last-known-good backend version used when neither pattern matches. -/
def defaultBl : String := "boq_assistant-bard-web-server_20240519.16_p0"

/-- The fetch-and-scan path of `getSNlM0e` (cache empty): check credentials,
fetch the bootstrap page, apply the cookie-update rule, fail on a non-OK
status, then scan for the nonce (fatal when absent) and the backend version
(with loose and default fallbacks). -/
def getSNlM0eFetch (s : GeminiProviderState) (resp : HttpResponse) : NonceCall :=
  match s.config.gemini with
  | none => ⟨.error .cookiesMissing, s, false, false⟩
  | some _ =>
    let u := updateCookies s.config resp.setCookies
    let s1 : GeminiProviderState := ⟨s.snlm0e, s.bl, u.config⟩
    if resp.ok then
      match keyCapture snlm0eKey resp.body.data with
      | none => ⟨.error .nonceNotFound, s1, true, u.saved⟩
      | some n =>
        let bl :=
          match keyCapture cfb2hKey resp.body.data with
          | some b => b
          | none =>
            match looseCapture blLooseHead resp.body.data with
            | some b => b
            | none => defaultBl
        ⟨.ok n, ⟨some n, some bl, s1.config⟩, true, u.saved⟩
    else ⟨.error (.pageFetchFailed resp.status), s1, true, u.saved⟩

/-- `getSNlM0e`: return the cached nonce immediately when truthy, fetch
otherwise. `resp` is the reply the bootstrap GET would produce, consumed only
when a fetch happens. -/
def getSNlM0e (s : GeminiProviderState) (resp : HttpResponse) : NonceCall :=
  match s.snlm0e with
  | some n => if n = "" then getSNlM0eFetch s resp else ⟨.ok n, s, false, false⟩
  | none => getSNlM0eFetch s resp

/-- A sequence of `getSNlM0e` calls on one provider: the per-call results,
the final state, and how many bootstrap fetches were performed. -/
def runNonceCalls (s : GeminiProviderState) :
    List HttpResponse → List (Except GeminiError String) × GeminiProviderState × Nat
  | [] => ([], s, 0)
  | r :: rs =>
    let c := getSNlM0e s r
    let t := runNonceCalls c.state rs
    (c.result :: t.1, t.2.1, (if c.fetched then 1 else 0) + t.2.2)

/-- The part of a `Set-Cookie` entry before the first `;` (what the split
in `updateCookies` selects). -/
def rawNameValue (s : String) : List Char := (s.data.splitOn ';').headD []

/-- The cookie name `updateCookies` parses: the part of `rawNameValue`
before the first `=`. -/
def rawName (s : String) : List Char := ((rawNameValue s).splitOn '=').headD []

/-- The cookie value `updateCookies` parses: everything of `rawNameValue`
after the first `=`, later `=` characters kept. -/
def rawValue (s : String) : List Char :=
  List.intercalate ['='] ((rawNameValue s).splitOn '=').tail

/-- The POST body `callGeminiAPI` actually sends (the inline template of the
provider, not the formatter module): the inner payload is assembled by string
concatenation around `JSON.stringify(prompt + "\n\nSystem: " + systemPrompt)`
with the hard-coded context `["",null,null,null,null,[]]`. -/
def callGeminiAPIBody (prompt systemPrompt snlm0e : String) : String :=
  "f.req=" ++
    encodeURIComponent (String.mk (render (.jarr [.jnull,
      .jstr ("[[" ++
        String.mk (render (.jstr (prompt ++ "\n\nSystem: " ++ systemPrompt))) ++
        "],null,[\"\",null,null,null,null,[]]]")]))) ++
    "&at=" ++ snlm0e

/-- A concrete chat response frame (XSSI guard, length marker, one `wrb.fr`
frame carrying conversation ids and one candidate). -/
def wrbSample : String :=
  xssiGuard ++
    "\n3\n[[\"wrb.fr\",null,\"[null,[\\\"c1\\\",\\\"r1\\\"],null,null,[[\\\"rc1\\\",[\\\"Hi\\\"]]]]\"]]"

/-! ## Theorems -/

/-- `List.findSome?` skips a block of inputs on which the function fails. -/
theorem findSome?_eq_of_forall_none {α β : Type} (f : α → Option β) :
    ∀ (l1 l2 : List α), (∀ x ∈ l1, f x = none) → (l1 ++ l2).findSome? f = l2.findSome? f
  | [], _, _ => rfl
  | x :: xs, l2, h => by
      have hx : f x = none := h x (List.mem_cons_self x xs)
      simp only [List.cons_append, List.findSome?, hx]
      exact findSome?_eq_of_forall_none f xs l2 fun y hy => h y (List.mem_cons_of_mem x hy)

/-- C5: `formatMessage` returns the message unchanged without a system
prompt, and with a non-empty system prompt returns
`"SYSTEM:\n" + systemPrompt + "\n\nUSER:\n" + message`, with that exact
separator and case-sensitive labels. -/
theorem formatMessage_spec :
    (∀ m : String, formatMessage m none = m) ∧
    (∀ m s : String, s ≠ "" →
      formatMessage m (some s) = "SYSTEM:\n" ++ s ++ "\n\nUSER:\n" ++ m) :=
  ⟨fun _ => rfl, fun m s h => by simp [formatMessage, h]⟩

/-- Witness for C5 at a concrete message and system prompt. -/
theorem formatMessage_spec_witness :
    formatMessage "hi" (some "tutor") = "SYSTEM:\n" ++ "tutor" ++ "\n\nUSER:\n" ++ "hi" :=
  formatMessage_spec.2 "hi" "tutor" (by decide)

/-- C6: `buildContextArray` maps a request with no continuation ids to
exactly `[null, null, null]`, and a request with all three ids supplied to
exactly those three values, in order, unmodified. -/
theorem buildContextArray_spec :
    (∀ m sp, buildContextArray ⟨m, sp, none, none, none⟩ = [none, none, none]) ∧
    (∀ m sp c r ch,
      buildContextArray ⟨m, sp, some c, some r, some ch⟩ = [some c, some r, some ch]) :=
  ⟨fun _ _ => rfl, fun _ _ _ _ _ => rfl⟩

/-- C3: the encoded request body is
`"f.req=" ++ urlEncode(JSON.stringify([null, inner])) ++ "&at=" ++ nonce`,
where `inner` is itself `JSON.stringify([[formattedMessage], null,
contextArray])` — double JSON encoding with an inert `null` middle slot. -/
theorem formatGeminiRequestBody_layers (options : GeminiRequestOptions) (nonce : String) :
    formatGeminiRequestBody options nonce =
      "f.req=" ++
        encodeURIComponent (String.mk (render (JVal.jarr [JVal.jnull,
          JVal.jstr (String.mk (render (JVal.jarr
            [ JVal.jarr [JVal.jstr (formatMessage options.message options.systemPrompt)],
              JVal.jnull,
              JVal.jarr ((buildContextArray options).map jOfOptStr) ])))]))) ++
        "&at=" ++ nonce := rfl

/-- C4: at a concrete turn, the body `callGeminiAPI` posts is not the Frame
Codec encoding of that turn: the provider inlines
`prompt + "\n\nSystem: " + systemPrompt` and a hard-coded
`["",null,null,null,null,[]]` context instead of calling the formatter. -/
theorem callGeminiAPI_body_bypasses_codec :
    callGeminiAPIBody "ls" "Be brief" "n0" =
      "f.req=%5Bnull%2C%22%5B%5B%5C%22ls%5C%5Cn%5C%5CnSystem%3A%20Be%20brief%5C%22%5D%2Cnull%2C%5B%5C%22%5C%22%2Cnull%2Cnull%2Cnull%2Cnull%2C%5B%5D%5D%5D%22%5D&at=n0" ∧
    formatGeminiRequestBody ⟨"ls", some "Be brief", none, none, none⟩ "n0" =
      "f.req=%5Bnull%2C%22%5B%5B%5C%22SYSTEM%3A%5C%5CnBe%20brief%5C%5Cn%5C%5CnUSER%3A%5C%5Cnls%5C%22%5D%2Cnull%2C%5Bnull%2Cnull%2Cnull%5D%5D%22%5D&at=n0" ∧
    callGeminiAPIBody "ls" "Be brief" "n0" ≠
      formatGeminiRequestBody ⟨"ls", some "Be brief", none, none, none⟩ "n0" :=
  ⟨rfl, rfl, by decide⟩

/-- C2: decoding is total (a total Lean function — no exception path exists);
whenever no `wrb.fr` frame yields a usable candidate the XSSI-stripped raw
text is returned verbatim, the input consisting of just the XSSI guard
decodes to `""`, and the guard followed by invalid JSON decodes to that text
with only the guard removed. -/
theorem parseGeminiResponse_total_fallback :
    (∀ raw : String,
        (responseFrames (stripXSSI raw.data)).findSome? frameResult = none →
        parseGeminiResponse raw = ⟨String.mk (stripXSSI raw.data), none, none⟩) ∧
    parseGeminiResponse xssiGuard = ⟨"", none, none⟩ ∧
    parseGeminiResponse (xssiGuard ++ "not valid json") = ⟨"not valid json", none, none⟩ := by
  refine ⟨fun raw h => ?_, rfl, rfl⟩
  unfold parseGeminiResponse
  rw [h]

/-- Witness for C2 at a concrete frameless input. -/
theorem parseGeminiResponse_total_fallback_witness :
    parseGeminiResponse "plain text reply" = ⟨"plain text reply", none, none⟩ :=
  parseGeminiResponse_total_fallback.1 "plain text reply" rfl

/-- C1: a response body whose parsed frames contain a `wrb.fr` frame (the
first usable one) whose twice-parsed payload has a non-empty candidates
array at index 4 decodes to the first string of the first candidate's
text-parts array, and the conversation/response ids are recovered from
payload index 1 when present. -/
theorem parseGeminiResponse_extracts_first_candidate
    (raw : String) (pre post : List JVal)
    (rpc p0 ids p2 p3 cid : JVal)
    (innerRest outerRest texts candRest cands payloadTail : List JVal)
    (payloadStr t : String)
    (hframes : responseFrames (stripXSSI raw.data) =
      pre ++
        JVal.jarr (JVal.jarr
          (JVal.jstr "wrb.fr" :: rpc :: JVal.jstr payloadStr :: innerRest) :: outerRest)
        :: post)
    (hpre : ∀ f ∈ pre, frameResult f = none)
    (hpayload : jsonParse payloadStr =
      some (JVal.jarr (p0 :: ids :: p2 :: p3 ::
        JVal.jarr (JVal.jarr
          (cid :: JVal.jarr (JVal.jstr t :: texts) :: candRest) :: cands)
        :: payloadTail))) :
    (parseGeminiResponse raw).text = t ∧
    ∀ c r idsRest, ids = JVal.jarr (JVal.jstr c :: JVal.jstr r :: idsRest) →
      (parseGeminiResponse raw).conversationId = some c ∧
      (parseGeminiResponse raw).responseId = some r := by
  have hmain : parseGeminiResponse raw =
      ⟨t,
        (payloadIds (JVal.jarr (p0 :: ids :: p2 :: p3 ::
          JVal.jarr (JVal.jarr
            (cid :: JVal.jarr (JVal.jstr t :: texts) :: candRest) :: cands)
          :: payloadTail))).1,
        (payloadIds (JVal.jarr (p0 :: ids :: p2 :: p3 ::
          JVal.jarr (JVal.jarr
            (cid :: JVal.jarr (JVal.jstr t :: texts) :: candRest) :: cands)
          :: payloadTail))).2⟩ := by
    unfold parseGeminiResponse
    rw [hframes, findSome?_eq_of_forall_none _ _ _ hpre]
    simp [List.findSome?, frameResult, hpayload, payloadResult, payloadCandidates,
      candidateText]
  refine ⟨by rw [hmain], fun c r idsRest hids => ?_⟩
  subst hids
  rw [hmain]
  exact ⟨by simp [payloadIds], by simp [payloadIds]⟩

/-- Witness for C1 at a concrete response frame. -/
theorem parseGeminiResponse_extracts_first_candidate_witness :
    (parseGeminiResponse wrbSample).text = "Hi" ∧
    (parseGeminiResponse wrbSample).conversationId = some "c1" ∧
    (parseGeminiResponse wrbSample).responseId = some "r1" := by
  have h := parseGeminiResponse_extracts_first_candidate wrbSample [] []
    JVal.jnull JVal.jnull (JVal.jarr [JVal.jstr "c1", JVal.jstr "r1"]) JVal.jnull JVal.jnull
    (JVal.jstr "rc1") [] [] [] [] [] []
    "[null,[\"c1\",\"r1\"],null,null,[[\"rc1\",[\"Hi\"]]]]" "Hi"
    (by rfl) (fun f hf => absurd hf (List.not_mem_nil f)) (by rfl)
  exact ⟨h.1, (h.2 "c1" "r1" [] rfl).1, (h.2 "c1" "r1" [] rfl).2⟩

/-- A captured nonce is never the empty string (the pattern requires at
least one captured character). -/
theorem keyCapture_some_ne_empty (pat : List Char) :
    ∀ (cs : List Char) (v : String), keyCapture pat cs = some v → v ≠ "" := by
  intro cs
  induction cs with
  | nil => intro v h; simp [keyCapture] at h
  | cons c cs ih =>
    intro v h
    simp only [keyCapture] at h
    split_ifs at h with h1 h2
    · have hv := Option.some.inj h
      intro hemp
      rw [← hv] at hemp
      exact h2.1 (congrArg String.data hemp)
    · exact ih v h
    · exact ih v h

/-- A provider whose nonce cache holds a non-empty value answers every call
from the cache: same nonce, unchanged state, zero fetches. -/
theorem runNonceCalls_cached :
    ∀ (rs : List HttpResponse) (s : GeminiProviderState) (n : String),
      s.snlm0e = some n → n ≠ "" →
      runNonceCalls s rs = (rs.map fun _ => Except.ok n, s, 0) := by
  intro rs
  induction rs with
  | nil => intro s n _ _; rfl
  | cons r rs ih =>
    intro s n h hn
    have hc : getSNlM0e s r = ⟨.ok n, s, false, false⟩ := by
      unfold getSNlM0e
      rw [h]
      simp [hn]
    simp [runNonceCalls, hc, ih s n h hn]

/-- A successful fetch caches the (non-empty) nonce it returns. -/
theorem getSNlM0eFetch_ok :
    ∀ (s : GeminiProviderState) (resp : HttpResponse) (n : String),
      (getSNlM0eFetch s resp).result = .ok n →
      (getSNlM0eFetch s resp).state.snlm0e = some n ∧ n ≠ "" := by
  intro s resp n
  unfold getSNlM0eFetch
  cases s.config.gemini with
  | none => intro h; simp at h
  | some g =>
    cases hok : resp.ok with
    | false => simp [hok]
    | true =>
      cases hk : keyCapture snlm0eKey resp.body.data with
      | none => simp [hok, hk]
      | some n0 =>
        simp only [hok, hk]
        intro h
        simp at h
        exact ⟨by simp [h], h ▸ keyCapture_some_ne_empty _ _ _ hk⟩

/-- C7: a cached (truthy) nonce is returned immediately with no HTTP fetch
and no state change; and after any successful call, every later call in any
sequence performs zero fetches, returns the same nonce, and leaves the state
— backend version included — untouched. -/
theorem getSNlM0e_one_shot_cache :
    (∀ (s : GeminiProviderState) (resp : HttpResponse) (n : String),
        s.snlm0e = some n → n ≠ "" →
        getSNlM0e s resp = ⟨.ok n, s, false, false⟩) ∧
    (∀ (s : GeminiProviderState) (resp : HttpResponse) (n : String),
        (getSNlM0e s resp).result = .ok n →
        (getSNlM0e s resp).state.snlm0e = some n ∧ n ≠ "" ∧
        ∀ rs : List HttpResponse,
          runNonceCalls (getSNlM0e s resp).state rs =
            (rs.map fun _ => Except.ok n, (getSNlM0e s resp).state, 0)) := by
  constructor
  · intro s resp n h hn
    unfold getSNlM0e
    rw [h]
    simp [hn]
  · intro s resp n hres
    have hkey : (getSNlM0e s resp).state.snlm0e = some n ∧ n ≠ "" := by
      cases hs : s.snlm0e with
      | none =>
        simp only [getSNlM0e, hs] at hres ⊢
        exact getSNlM0eFetch_ok s resp n hres
      | some n0 =>
        simp only [getSNlM0e, hs] at hres ⊢
        by_cases h0 : n0 = ""
        · rw [if_pos h0] at hres ⊢
          exact getSNlM0eFetch_ok s resp n hres
        · rw [if_neg h0] at hres ⊢
          simp at hres
          subst hres
          exact ⟨by simp [hs], h0⟩
    exact ⟨hkey.1, hkey.2, fun rs => runNonceCalls_cached rs _ n hkey.1 hkey.2⟩

/-- Witness for C7 at a concrete cached provider state. -/
theorem getSNlM0e_one_shot_cache_witness :
    getSNlM0e ⟨some "nonce0", some "bl0", ⟨some ⟨[("k", "v")]⟩⟩⟩ ⟨true, 200, [], ""⟩ =
      ⟨.ok "nonce0", ⟨some "nonce0", some "bl0", ⟨some ⟨[("k", "v")]⟩⟩⟩, false, false⟩ :=
  getSNlM0e_one_shot_cache.1 ⟨some "nonce0", some "bl0", ⟨some ⟨[("k", "v")]⟩⟩⟩
    ⟨true, 200, [], ""⟩ "nonce0" rfl (by decide)

/-- C8: when the bootstrap body holds no `"SNlM0e":"<value>"` match, the call
fails with the authentication error (nonce not found, cookies likely
invalid), the nonce cache stays unset and the version cache is unchanged
(only the cookie-update rule may touch the configuration). -/
theorem getSNlM0e_nonce_not_found :
    ∀ (s : GeminiProviderState) (resp : HttpResponse) (g : GeminiConfig),
      s.snlm0e = none → s.config.gemini = some g → resp.ok = true →
      keyCapture snlm0eKey resp.body.data = none →
      (getSNlM0e s resp).result = .error .nonceNotFound ∧
      (getSNlM0e s resp).state.snlm0e = none ∧
      (getSNlM0e s resp).state.bl = s.bl ∧
      (getSNlM0e s resp).state.config = (updateCookies s.config resp.setCookies).config := by
  intro s resp g hs hg hok hk
  unfold getSNlM0e getSNlM0eFetch
  rw [hs, hg, hok, hk]
  simp [hs]

/-- Witness for C8 at a concrete nonce-free bootstrap page. -/
theorem getSNlM0e_nonce_not_found_witness :
    (getSNlM0e ⟨none, some "bl0", ⟨some ⟨[("k", "v")]⟩⟩⟩ ⟨true, 200, [], "no nonce"⟩).result =
      .error .nonceNotFound ∧
    (getSNlM0e ⟨none, some "bl0", ⟨some ⟨[("k", "v")]⟩⟩⟩ ⟨true, 200, [], "no nonce"⟩).state.snlm0e =
      none :=
  ⟨(getSNlM0e_nonce_not_found ⟨none, some "bl0", ⟨some ⟨[("k", "v")]⟩⟩⟩
      ⟨true, 200, [], "no nonce"⟩ ⟨[("k", "v")]⟩ rfl rfl rfl rfl).1,
   (getSNlM0e_nonce_not_found ⟨none, some "bl0", ⟨some ⟨[("k", "v")]⟩⟩⟩
      ⟨true, 200, [], "no nonce"⟩ ⟨[("k", "v")]⟩ rfl rfl rfl rfl).2.1⟩

/-- Splitting a character list never yields the empty list of fields. -/
theorem splitOn_ne_nil (sep : Char) (l : List Char) : l.splitOn sep ≠ [] := by
  simp only [List.splitOn]
  exact List.splitOnP_ne_nil _ l

/-- When the loop of `updateCookies` reports no change, the map really is
untouched. -/
theorem applySetCookies_snd_false_fst :
    ∀ (scs : List String) (m : CookieMap),
      (applySetCookies m scs).2 = false → (applySetCookies m scs).1 = m := by
  intro scs
  induction scs with
  | nil => intro m _; rfl
  | cons sc rest ih =>
    intro m h
    cases hp : parseSetCookie sc with
    | none =>
      simp only [applySetCookies, hp] at h ⊢
      exact ih m h
    | some nv =>
      obtain ⟨n, v⟩ := nv
      simp only [applySetCookies, hp] at h ⊢
      by_cases hl : lookupCookie m n = some v
      · rw [if_pos hl] at h ⊢
        exact ih m h
      · rw [if_neg hl] at h
        simp at h

/-- The loop of `updateCookies` reports no change exactly when every parsed
entry's value coincides with the stored one. -/
theorem applySetCookies_false_iff :
    ∀ (scs : List String) (m : CookieMap),
      (applySetCookies m scs).2 = false ↔
        ∀ sc ∈ scs, ∀ n v, parseSetCookie sc = some (n, v) → lookupCookie m n = some v := by
  intro scs
  induction scs with
  | nil => intro m; simp [applySetCookies]
  | cons sc rest ih =>
    intro m
    cases hp : parseSetCookie sc with
    | none =>
      simp only [applySetCookies, hp]
      rw [ih m]
      constructor
      · intro h sc' hmem n v hpv
        rcases List.mem_cons.mp hmem with rfl | hmem'
        · rw [hp] at hpv
          exact absurd hpv (by simp)
        · exact h sc' hmem' n v hpv
      · intro h sc' hmem' n v hpv
        exact h sc' (List.mem_cons_of_mem sc hmem') n v hpv
    | some nv =>
      obtain ⟨n, v⟩ := nv
      simp only [applySetCookies, hp]
      by_cases hl : lookupCookie m n = some v
      · rw [if_pos hl, ih m]
        constructor
        · intro h sc' hmem n' v' hpv
          rcases List.mem_cons.mp hmem with rfl | hmem'
          · rw [hp] at hpv
            simp at hpv
            obtain ⟨rfl, rfl⟩ := hpv
            exact hl
          · exact h sc' hmem' n' v' hpv
        · intro h sc' hmem' n' v' hpv
          exact h sc' (List.mem_cons_of_mem sc hmem') n' v' hpv
      · rw [if_neg hl]
        constructor
        · intro h
          exact absurd h (by simp)
        · intro h
          exact absurd (h sc (List.mem_cons_self sc rest) n v hp) hl

/-- After a property write, reading the written key returns the new value. -/
theorem lookupCookie_setCookieVal :
    ∀ (m : CookieMap) (n v : String), lookupCookie (setCookieVal m n v) n = some v := by
  intro m n v
  induction m with
  | nil => simp [setCookieVal, lookupCookie, List.find?]
  | cons p ps ih =>
    by_cases hp : (p.1 == n) = true
    · have hp' : p.1 = n := by simpa using hp
      have hset : setCookieVal (p :: ps) n v =
          (n, v) :: ps.map (fun q => if q.1 == n then (n, v) else q) := by
        simp [setCookieVal, List.any_cons, hp, hp']
      rw [hset]
      simp [lookupCookie, List.find?]
    · have hp' : ¬ p.1 = n := by simpa using hp
      by_cases hany : ps.any (fun q => q.1 == n) = true
      · have h1 : setCookieVal (p :: ps) n v =
            p :: ps.map (fun q => if q.1 == n then (n, v) else q) := by
          simp [setCookieVal, List.any_cons, hp, hp', hany]
        have h2 : setCookieVal ps n v = ps.map (fun q => if q.1 == n then (n, v) else q) := by
          simp [setCookieVal, hany]
        rw [h1]
        rw [h2] at ih
        simpa [lookupCookie, List.find?, hp] using ih
      · have h1 : setCookieVal (p :: ps) n v = p :: (ps ++ [(n, v)]) := by
          simp [setCookieVal, List.any_cons, hp, hany]
        have h2 : setCookieVal ps n v = ps ++ [(n, v)] := by
          simp [setCookieVal, hany]
        rw [h1]
        rw [h2] at ih
        simpa [lookupCookie, List.find?, hp] using ih

/-- C9: per `Set-Cookie` entry only the name/value pair before the first `;`
is parsed; the loop reports a change exactly when some parsed value differs
from the stored one (so no difference leaves the map untouched); and
`updateCookies` rewrites the configuration with the folded map and persists
it exactly when the loop reported a change. -/
theorem updateCookies_rule :
    ∀ (m : CookieMap) (scs : List String),
      ((applySetCookies m scs).2 = false → (applySetCookies m scs).1 = m) ∧
      ((applySetCookies m scs).2 = false ↔
        ∀ sc ∈ scs, ∀ n v, parseSetCookie sc = some (n, v) → lookupCookie m n = some v) ∧
      (∀ g : GeminiConfig, g.cookies = m →
        updateCookies ⟨some g⟩ scs =
          ⟨⟨some ⟨(applySetCookies m scs).1⟩⟩, (applySetCookies m scs).2⟩) ∧
      (∀ a b : String, ';' ∉ a.data →
        parseSetCookie (a ++ ";" ++ b) = parseSetCookie a) := by
  intro m scs
  refine ⟨applySetCookies_snd_false_fst scs m, applySetCookies_false_iff scs m, ?_, ?_⟩
  · intro g hg
    subst hg
    cases scs <;> rfl
  · intro a b hab
    have hdata : (a ++ ";" ++ b).data = a.data ++ ';' :: b.data := by
      rw [String.data_append, String.data_append, List.append_assoc]
      rfl
    have hsplit1 : (a.data ++ ';' :: b.data).splitOn ';' = a.data :: b.data.splitOn ';' := by
      simp only [List.splitOn]
      exact List.splitOnP_first _ a.data
        (fun x hx => by simp only [beq_iff_eq]; intro heq; exact hab (heq ▸ hx))
        ';' (by simp) b.data
    have hsplit2 : a.data.splitOn ';' = [a.data] := by
      simp only [List.splitOn]
      exact List.splitOnP_eq_single _ _
        (fun x hx => by simp only [beq_iff_eq]; intro heq; exact hab (heq ▸ hx))
    unfold parseSetCookie
    rw [hdata, hsplit1, hsplit2]

/-- Witness for C9 at a concrete entry that matches the stored value. -/
theorem updateCookies_rule_witness :
    (applySetCookies [("sid", "one")] ["sid=one; Path=/"]).1 = [("sid", "one")] :=
  (updateCookies_rule [("sid", "one")] ["sid=one; Path=/"]).1 rfl

/-- An entry is parsed from the part of it before the first semicolon. -/
theorem parseSetCookie_eq_pnv (s : String) :
    parseSetCookie s = parseNameValue (rawNameValue s) := by
  unfold parseSetCookie rawNameValue
  rcases hs1 : s.data.splitOn ';' with _ | ⟨nv, tl⟩
  · exact absurd hs1 (splitOn_ne_nil ';' s.data)
  · rfl

/-- The name/value step, stated through head and tail of the `=`-split. -/
theorem parseNameValue_eq (nv : List Char) :
    parseNameValue nv =
      if (nv.splitOn '=').headD [] = [] ∨
          List.intercalate ['='] (nv.splitOn '=').tail = [] then none
      else some (String.mk ((nv.splitOn '=').headD []),
        String.mk (List.intercalate ['='] (nv.splitOn '=').tail)) := by
  unfold parseNameValue
  rcases hs2 : nv.splitOn '=' with _ | ⟨name, vps⟩
  · exact absurd hs2 (splitOn_ne_nil '=' nv)
  · by_cases hnv : nv = []
    · rw [if_pos hnv]
      subst hnv
      have hz : ([] : List Char).splitOn '=' = [[]] := rfl
      rw [hz] at hs2
      obtain ⟨rfl, rfl⟩ : name = [] ∧ vps = [] := by
        injection hs2 with ha hb
        exact ⟨ha.symm, hb.symm⟩
      simp
    · rw [if_neg hnv, List.headD_cons, List.tail_cons]

/-- What `parseSetCookie` computes, stated through the raw name and value
fields of the entry. -/
theorem parseSetCookie_eq (s : String) :
    parseSetCookie s =
      if rawName s = [] ∨ rawValue s = [] then none
      else some (String.mk (rawName s), String.mk (rawValue s)) := by
  rw [parseSetCookie_eq_pnv, parseNameValue_eq]
  rfl

/-- C10: a parsed entry's value is everything between the first `=` and the
first `;`, kept in full even when it contains further `=` characters, and
the parsed entry is stored under its name; an entry whose parsed name or
value is empty is skipped entirely — the parse fails exactly on those
entries, and a failed parse leaves the fold unchanged (so no map update and
no persistence from it). -/
theorem updateCookies_value_semantics :
    (∀ s n v : String, parseSetCookie s = some (n, v) →
        n = String.mk (rawName s) ∧ v = String.mk (rawValue s)) ∧
    (∀ (m : CookieMap) (s n v : String), parseSetCookie s = some (n, v) →
        lookupCookie (applySetCookies m [s]).1 n = some v) ∧
    (∀ (m : CookieMap) (s : String) (rest : List String), parseSetCookie s = none →
        applySetCookies m (s :: rest) = applySetCookies m rest) ∧
    (∀ s : String, parseSetCookie s = none ↔ (rawName s = [] ∨ rawValue s = [])) := by
  refine ⟨?_, ?_, ?_, ?_⟩
  · intro s n v h
    rw [parseSetCookie_eq] at h
    by_cases hc : rawName s = [] ∨ rawValue s = []
    · rw [if_pos hc] at h
      exact absurd h (by simp)
    · rw [if_neg hc] at h
      have hinj := Option.some.inj h
      refine ⟨?_, ?_⟩
      · exact (congrArg Prod.fst hinj).symm
      · exact (congrArg Prod.snd hinj).symm
  · intro m s n v h
    by_cases hl : lookupCookie m n = some v
    · have hfix : (applySetCookies m [s]).1 = m := by
        simp [applySetCookies, h, hl]
      rw [hfix]
      exact hl
    · have hfix : (applySetCookies m [s]).1 = setCookieVal m n v := by
        simp [applySetCookies, h, hl]
      rw [hfix]
      exact lookupCookie_setCookieVal m n v
  · intro m s rest h
    simp only [applySetCookies, h]
  · intro s
    rw [parseSetCookie_eq]
    split_ifs with hc
    · simp [hc]
    · simp [hc]

/-- Witness for C10 at a concrete entry whose value contains `=`. -/
theorem updateCookies_value_semantics_witness :
    lookupCookie (applySetCookies [] ["tok=a=b; Secure"]).1 "tok" = some "a=b" :=
  updateCookies_value_semantics.2.1 [] "tok=a=b; Secure" "tok" "a=b" rfl

end AiCli
